import Mathlib

/-!
Shallow embedding of the stroke-capture / mask-rasterization / request-lifecycle
engine of `src/src/Editor.tsx` (cleanup.pictures).

Modelling conventions:
  * A canvas 2D drawing buffer (`Ctx`) is a pair of dimensions plus a total pixel
    map `Point → Option String` (`none` = transparent / cleared).  The buffer is
    modelled unclipped over all of ℤ²; the code only ever clears its exact canvas
    rectangle and queries are made in-bounds.
  * Browser stroking of a polyline with `lineCap = round`, `lineJoin = round` and
    `lineWidth = w` paints the union of the capsules of radius `w/2` around each
    path segment (a degenerate segment paints a disc).  The coverage test is done
    in integer arithmetic, scaled by 4 to avoid the division by 2.
  * JavaScript truthiness: an `Image.src` is truthy iff it is a non-empty string;
    `!line.size` is true when `size` is `undefined` (here `none`) or `0`.
  * Assigning `canvas.width`/`canvas.height` resets the bitmap to fully
    transparent; `refreshCanvasMask` relies on this to recompute from scratch.
-/

namespace Cleanup

/-- A point in page or surface coordinates (`{x, y}` in the source). -/
structure Point where
  x : Int
  y : Int
deriving DecidableEq, Repr

/-- A stroke: `interface Line { size?: number; pts: {x,y}[] }`. -/
structure Line where
  size : Option Nat
  pts : List Point
deriving DecidableEq, Repr

/-- The brand-new empty pending stroke `{ pts: [] }` pushed by the source. -/
def pendingLine : Line := { size := none, pts := [] }

/-- A decoded image (`HTMLImageElement`): its `src` URL, natural dimensions and
bitmap content. -/
structure Image where
  src : String
  width : Nat
  height : Nat
  content : Point → Option String

/-- A canvas 2D drawing buffer. -/
structure Ctx where
  width : Nat
  height : Nat
  pixels : Point → Option String

/-- A blank (fully transparent) buffer of the given dimensions. -/
def blankCtx (w h : Nat) : Ctx := { width := w, height := h, pixels := fun _ => none }

def dotP (u v : Point) : Int := u.x * v.x + u.y * v.y

def subP (u v : Point) : Point := ⟨u.x - v.x, u.y - v.y⟩

def crossP (u v : Point) : Int := u.x * v.y - u.y * v.x

def normSq (u : Point) : Int := dotP u u

/-- Whether pixel `q` lies within distance `w/2` of the segment from `a` to `b`
(the capsule painted by a round-capped stroke of width `w`).  All comparisons are
scaled by 4 so the arithmetic stays in ℤ. -/
def segCovers (a b : Point) (w : Nat) (q : Point) : Bool :=
  let d := subP b a
  let aq := subP q a
  let t := dotP aq d
  if t ≤ 0 then 4 * normSq aq ≤ (w : Int) ^ 2
  else if normSq d ≤ t then 4 * normSq (subP q b) ≤ (w : Int) ^ 2
  else 4 * crossP aq d ^ 2 ≤ (w : Int) ^ 2 * normSq d

/-- The segments of the path traced by `moveTo(pts[0])` followed by `lineTo(pt)`
for every `pt` of `pts` (the first `lineTo` targets `pts[0]` again, giving a
leading degenerate segment). -/
def pathSegments (pts : List Point) : List (Point × Point) :=
  match pts with
  | [] => []
  | p :: _ => (p :: pts).zip pts

/-- The guard `!line?.pts.length || !line.size` of `drawLines`, negated: the
stroke is skipped unless it has at least one point and a truthy (set, non-zero)
size. -/
def strokeContributes (l : Line) : Bool :=
  !l.pts.isEmpty && l.size.getD 0 != 0

/-- Whether stroking `l` paints pixel `q`: the stroke contributes and `q` lies in
some capsule of its path. -/
def lineCovers (l : Line) (q : Point) : Bool :=
  strokeContributes l &&
    (pathSegments l.pts).any fun ab => segCovers ab.1 ab.2 (l.size.getD 0) q

/-- One iteration of the `lines.forEach` body of `drawLines`: skip the stroke if
the guard fires, otherwise paint its coverage in the solid `color`. -/
def strokePaint (color : String) (c : Ctx) (l : Line) : Ctx :=
  if strokeContributes l then
    { c with pixels := fun q => if lineCovers l q then some color else c.pixels q }
  else c

/-- The source function `drawLines(ctx, lines, color)`: paint every stroke of `lines`
onto `c` in `color` (default `rgba(255, 0, 0, 0.5)`). -/
def drawLines (c : Ctx) (lines : List Line) (color : String := "rgba(255, 0, 0, 0.5)") : Ctx :=
  lines.foldl (strokePaint color) c

/-- The source function `refreshCanvasMask`.  Throws (`Except.error`) when
`!context?.canvas.width || !context?.canvas.height`; otherwise resizes the mask
canvas to the visible canvas's dimensions — which resets its bitmap to
transparent — and draws the whole stroke history in solid white.  (The
`getContext('2d')` null-check of the source cannot fail in this model.) -/
def refreshCanvasMask (context : Option Ctx) (maskCanvas : Ctx) (lines : List Line) :
    Except String Ctx :=
  match context with
  | none => .error "canvas has invalid size"
  | some c =>
    if c.width = 0 ∨ c.height = 0 then .error "canvas has invalid size"
    else
      let mc : Ctx := { maskCanvas with
        width := c.width, height := c.height, pixels := fun _ => none }
      .ok (drawLines mc lines "white")

/-- The mutable state of the `Editor` component that the engine reads and
writes: the stroke history (`lines`), the original and result images, the
visible 2D context, the off-screen mask canvas, the session lock
(`isInpaintingLoading`), whether the `onPaint`/`onMouseUp` listeners are
attached, the snapshotted brush-size setting, the canvas's page offset used by
the coordinate mapper, and the loaded `file` submitted to the service. -/
structure EditorState where
  file : String
  brushSize : Nat
  original : Image
  render : Image
  context : Option Ctx
  maskCanvas : Ctx
  lines : List Line
  isInpaintingLoading : Bool
  drawingListeners : Bool
  canvasOffsetLeft : Int
  canvasOffsetTop : Int

/-- A mouse event's page coordinates. -/
structure MouseEv where
  pageX : Int
  pageY : Int
deriving DecidableEq, Repr

/-- Clearing: `ctx.clearRect(0, 0, ctx.canvas.width, ctx.canvas.height)` means the whole
buffer becomes transparent. -/
def clearRect (c : Ctx) : Ctx := { c with pixels := fun _ => none }

/-- Blitting: with `ctx.drawImage(img, 0, 0)` the image's bitmap is painted over the buffer;
pixels where the image has no content keep the buffer's previous value. -/
def drawImage (c : Ctx) (img : Image) : Ctx :=
  { c with pixels := fun q =>
      match img.content q with
      | some v => some v
      | none => c.pixels q }

/-- The source function `draw()`: no-op without a context; otherwise clear the visible
surface, draw the base layer (`render` if its `src` is truthy, else `original`)
and overlay only `lines[lines.length - 1]`.  An out-of-range index yields
`undefined`, which the `!line?.pts.length` guard of `drawLines` skips, hence the
`Option` match on `getLast?`. -/
def draw (s : EditorState) : EditorState :=
  match s.context with
  | none => s
  | some c =>
    let c1 := clearRect c
    let c2 := if s.render.src ≠ "" then drawImage c1 s.render else drawImage c1 s.original
    let c3 :=
      match s.lines.getLast? with
      | none => c2
      | some l => drawLines c2 [l]
    { s with context := some c3 }

/-- Replace the last element of the history in place (`lines[lines.length - 1]`
is mutated through a reference in the source); the history is never empty in the
component (it is initialised to `[{ pts: [] }]` and only ever pushed to). -/
def setLast (ls : List Line) (f : Line → Line) : List Line :=
  match ls.getLast? with
  | none => ls
  | some l => ls.dropLast ++ [f l]

/-- The source handler `onPaint(ev)`: map the event through the coordinate mapper
(page position minus the canvas's page offset), push the mapped point onto the
active stroke, and redraw. -/
def onPaint (s : EditorState) (ev : MouseEv) : EditorState :=
  let p : Point := ⟨ev.pageX - s.canvasOffsetLeft, ev.pageY - s.canvasOffsetTop⟩
  draw { s with lines := setLast s.lines fun l => { l with pts := l.pts ++ [p] } }

/-- The source handler `canvas.onmousedown`: a no-op while the base image's `src` is
not truthy; otherwise snapshot the configured brush size onto the active stroke,
attach the move/release listeners, and feed the press itself to `onPaint`. -/
def onMouseDown (s : EditorState) (ev : MouseEv) : EditorState :=
  if s.original.src = "" then s
  else
    let s1 := { s with
      lines := setLast s.lines fun l => { l with size := some s.brushSize }
      drawingListeners := true }
    onPaint s1 ev

/-- A pointer press over the surface as the DOM delivers it.  While
`isInpaintingLoading` is true the enclosing element carries the
`pointer-events-none` class, so the event never reaches the canvas's
`onmousedown` handler; the handler itself only exists once a 2D context was
obtained. -/
def pointerPress (s : EditorState) (ev : MouseEv) : EditorState :=
  if s.isInpaintingLoading then s
  else
    match s.context with
    | none => s
    | some _ => onMouseDown s ev

/-- Bool form of the `refreshCanvasMask` success guard: a context exists and has
non-zero width and height. -/
def surfaceOk (s : EditorState) : Bool :=
  match s.context with
  | none => false
  | some c => !(c.width == 0) && !(c.height == 0)

/-- Outcomes of the external collaborators awaited during one submission:
`token` is what `firebase.getAppCheckToken()` resolves to (or rejects with);
`reply` is what `inpaint(file, mask, token)` resolves to (or rejects with) — the
empty string standing for a falsy result; `loadOk`, `decodedW`, `decodedH` and
`decodedContent` describe the subsequent image decode. -/
structure Oracle where
  token : Except String String
  reply : Except String String
  loadOk : Bool
  decodedW : Nat
  decodedH : Nat
  decodedContent : Point → Option String

/-- The observable side effects of `onMouseUp`, in program order. -/
inductive Effect where
  | setLoading (b : Bool)
  | removeListeners
  | rasterizeMask
  | logEvent (name : String)
  | fetchToken
  | inpaintRequest (file : String) (mask : Ctx) (token : String)
  | loadRender (res : String)
  | alertMsg (m : String)
  | pushLine
  | redraw

/-- What one run of the `onMouseUp` handler produced: the state it left behind,
the ordered trace of its side effects, and the exception that escaped it, if
any (only `refreshCanvasMask` can throw outside the `try`). -/
structure StepResult where
  state : EditorState
  trace : List Effect
  thrown : Option String

/-- Modelled from the spec: the image-loader collaborator (`loadImage` from
`./utils`, not under `src/`) — "load(fileBytes) → (decoded image, natural
width, natural height), asynchronous, may fail with a decode error"; on the
failure path "the Base Layer is left unchanged (no partial mutation)".  On
success `loadImage(render, res)` replaces `render` by the decoded image whose
`src` is `res`; on failure it throws and `render` is unchanged. -/
def loadImage (_render : Image) (res : String) (o : Oracle) : Except String Image :=
  if o.loadOk then
    .ok { src := res, width := o.decodedW, height := o.decodedH,
          content := o.decodedContent }
  else .error "image decode error"

/-- The code after the `try`/`catch` of `onMouseUp`: push a fresh pending
stroke, clear the session lock, redraw. -/
def finishTail (s : EditorState) (t : List Effect) : StepResult :=
  { state := draw { s with lines := s.lines ++ [pendingLine], isInpaintingLoading := false }
    trace := t ++ [.pushLine, .setLoading false, .redraw]
    thrown := none }

/-- The `catch` block of `onMouseUp` (log `inpaint_failed`, alert the message)
followed by the common tail. -/
def catchPath (s : EditorState) (t : List Effect) (e : String) : StepResult :=
  finishTail s (t ++ [.logEvent "inpaint_failed", .alertMsg e])

/-- The `try` block of `onMouseUp` from the token fetch on: await the token,
issue the inpainting request, treat a falsy reply as `throw new Error('empty
response')`, await the image decode into `render`, and log `inpaint_processed`;
any error lands in `catchPath`. -/
def trySubmit (s : EditorState) (t : List Effect) (mc : Ctx) (o : Oracle) : StepResult :=
  match o.token with
  | .error e => catchPath s t e
  | .ok tok =>
    let t1 := t ++ [.inpaintRequest s.file mc tok]
    match o.reply with
    | .error e => catchPath s t1 e
    | .ok res =>
      if res = "" then catchPath s t1 "empty response"
      else
        match loadImage s.render res o with
        | .error e => catchPath s (t1 ++ [.loadRender res]) e
        | .ok img =>
          finishTail { s with render := img }
            (t1 ++ [.loadRender res, .logEvent "inpaint_processed"])

/-- The source handler `onMouseUp`: a no-op while the base image's `src` is not
truthy; otherwise, in program order, set the session lock, detach the
move/release listeners, rasterize the mask (whose exception, if any, escapes the
handler), then run the `try` block and the common tail. -/
def onMouseUp (s : EditorState) (o : Oracle) : StepResult :=
  if s.original.src = "" then { state := s, trace := [], thrown := none }
  else
    let s1 := { s with isInpaintingLoading := true, drawingListeners := false }
    let t1 : List Effect := [.setLoading true, .removeListeners]
    match refreshCanvasMask s1.context s1.maskCanvas s1.lines with
    | .error e => { state := s1, trace := t1, thrown := some e }
    | .ok mc =>
      trySubmit { s1 with maskCanvas := mc }
        (t1 ++ [.rasterizeMask, .logEvent "inpaint_start", .fetchToken]) mc o

/-- Whether the whole submission pipeline succeeds: token fetch resolves, the
inpainting reply is truthy, and the image decode succeeds. -/
def submitSucceeds (o : Oracle) : Bool :=
  o.token.isOk && (match o.reply with | .ok r => r != "" | .error _ => false) && o.loadOk

/-- The result string of a resolved inpainting reply (empty when rejected). -/
def replyRes (o : Oracle) : String :=
  match o.reply with
  | .ok r => r
  | .error _ => ""

/-- The five side effects whose order claim C3 speaks about. -/
inductive SubmitStep where
  | detach
  | lock
  | rasterize
  | token
  | request
deriving DecidableEq, Repr

/-- Project an effect onto the five submission steps (`setLoading true` is the
lock-set step; `setLoading false`, logging, decode, push and redraw are none of
the five). -/
def stepOf : Effect → Option SubmitStep
  | .setLoading true => some .lock
  | .removeListeners => some .detach
  | .rasterizeMask => some .rasterize
  | .fetchToken => some .token
  | .inpaintRequest _ _ _ => some .request
  | _ => none

/-- A trace restricted to the five submission steps, in order. -/
def submitSteps (t : List Effect) : List SubmitStep :=
  t.filterMap stepOf

/-! Helper lemmas about the rasterizer -/

theorem lineCovers_of_not_contributes {l : Line} (h : strokeContributes l = false)
    (q : Point) : lineCovers l q = false := by
  simp [lineCovers, h]

theorem strokePaint_pixels (color : String) (c : Ctx) (l : Line) (q : Point) :
    (strokePaint color c l).pixels q =
      if lineCovers l q then some color else c.pixels q := by
  cases h : strokeContributes l with
  | false => simp [strokePaint, h, lineCovers_of_not_contributes h]
  | true => simp [strokePaint, h]

theorem strokePaint_width (color : String) (c : Ctx) (l : Line) :
    (strokePaint color c l).width = c.width := by
  cases h : strokeContributes l <;> simp [strokePaint, h]

theorem strokePaint_height (color : String) (c : Ctx) (l : Line) :
    (strokePaint color c l).height = c.height := by
  cases h : strokeContributes l <;> simp [strokePaint, h]

theorem drawLines_pixels (color : String) (ls : List Line) (c : Ctx) (q : Point) :
    (drawLines c ls color).pixels q =
      if ls.any (fun l => lineCovers l q) then some color else c.pixels q := by
  induction ls generalizing c with
  | nil => simp [drawLines]
  | cons l ls ih =>
    show (drawLines (strokePaint color c l) ls color).pixels q = _
    rw [ih]
    cases hl : lineCovers l q <;> cases hany : ls.any (fun l => lineCovers l q) <;>
      simp [List.any_cons, hl, hany, strokePaint_pixels]

theorem drawLines_width (color : String) (ls : List Line) (c : Ctx) :
    (drawLines c ls color).width = c.width := by
  induction ls generalizing c with
  | nil => rfl
  | cons l ls ih =>
    show (drawLines (strokePaint color c l) ls color).width = _
    rw [ih, strokePaint_width]

theorem drawLines_height (color : String) (ls : List Line) (c : Ctx) :
    (drawLines c ls color).height = c.height := by
  induction ls generalizing c with
  | nil => rfl
  | cons l ls ih =>
    show (drawLines (strokePaint color c l) ls color).height = _
    rw [ih, strokePaint_height]

theorem refreshCanvasMask_ok (c : Ctx) (m : Ctx) (lines : List Line)
    (hw : c.width ≠ 0) (hh : c.height ≠ 0) :
    refreshCanvasMask (some c) m lines =
      .ok (drawLines (blankCtx c.width c.height) lines "white") := by
  simp only [refreshCanvasMask]
  rw [if_neg (by rintro (h | h) <;> [exact hw h; exact hh h])]
  rfl

theorem refreshCanvasMask_ok_inv {c m : Ctx} {lines : List Line} {r : Ctx}
    (h : refreshCanvasMask (some c) m lines = .ok r) :
    c.width ≠ 0 ∧ c.height ≠ 0 ∧
      r = drawLines (blankCtx c.width c.height) lines "white" := by
  by_cases hg : c.width = 0 ∨ c.height = 0
  · simp [refreshCanvasMask, hg] at h
  · push_neg at hg
    rw [refreshCanvasMask_ok c m lines hg.1 hg.2] at h
    exact ⟨hg.1, hg.2, (Except.ok.injEq _ _ ▸ h.symm : _)⟩

/-! Helper lemmas about the compositor and the submission tail -/

theorem draw_lines (s : EditorState) : (draw s).lines = s.lines := by
  cases h : s.context <;> simp [draw, h]

theorem draw_render (s : EditorState) : (draw s).render = s.render := by
  cases h : s.context <;> simp [draw, h]

theorem draw_isInpaintingLoading (s : EditorState) :
    (draw s).isInpaintingLoading = s.isInpaintingLoading := by
  cases h : s.context <;> simp [draw, h]

theorem finishTail_thrown (s : EditorState) (t : List Effect) :
    (finishTail s t).thrown = none := rfl

theorem finishTail_lines (s : EditorState) (t : List Effect) :
    (finishTail s t).state.lines = s.lines ++ [pendingLine] := by
  simp [finishTail, draw_lines]

theorem finishTail_loading (s : EditorState) (t : List Effect) :
    (finishTail s t).state.isInpaintingLoading = false := by
  simp [finishTail, draw_isInpaintingLoading]

theorem finishTail_render (s : EditorState) (t : List Effect) :
    (finishTail s t).state.render = s.render := by
  simp [finishTail, draw_render]

theorem catchPath_thrown (s : EditorState) (t : List Effect) (e : String) :
    (catchPath s t e).thrown = none := rfl

theorem catchPath_lines (s : EditorState) (t : List Effect) (e : String) :
    (catchPath s t e).state.lines = s.lines ++ [pendingLine] :=
  finishTail_lines s _

theorem catchPath_loading (s : EditorState) (t : List Effect) (e : String) :
    (catchPath s t e).state.isInpaintingLoading = false :=
  finishTail_loading s _

theorem catchPath_render (s : EditorState) (t : List Effect) (e : String) :
    (catchPath s t e).state.render = s.render :=
  finishTail_render s _

theorem finishTail_trace (s : EditorState) (t : List Effect) :
    (finishTail s t).trace = t ++ [.pushLine, .setLoading false, .redraw] := rfl

theorem catchPath_trace (s : EditorState) (t : List Effect) (e : String) :
    (catchPath s t e).trace =
      t ++ [.logEvent "inpaint_failed", .alertMsg e] ++ [.pushLine, .setLoading false, .redraw] :=
  rfl

theorem setLast_concat (ls : List Line) (a : Line) (f : Line → Line) :
    setLast (ls ++ [a]) f = ls ++ [f a] := by
  simp [setLast, List.getLast?_concat, List.dropLast_concat]

/-! Sample states used by witnesses -/

def noContent : Point → Option String := fun _ => none

def origImg : Image := { src := "blob:original", width := 8, height := 6, content := noContent }

def emptyImg : Image := { src := "", width := 0, height := 0, content := noContent }

def visCtx : Ctx := { width := 8, height := 6, pixels := noContent }

def strokeA : Line := { size := some 4, pts := [⟨1, 1⟩, ⟨3, 1⟩] }

def strokeB : Line := { size := some 2, pts := [⟨5, 4⟩] }

def s0 : EditorState :=
  { file := "photo.png", brushSize := 40, original := origImg, render := emptyImg
    context := some visCtx, maskCanvas := blankCtx 0 0, lines := [pendingLine]
    isInpaintingLoading := false, drawingListeners := false
    canvasOffsetLeft := 3, canvasOffsetTop := 5 }

def lockedState : EditorState := { s0 with isInpaintingLoading := true }

def o0 : Oracle :=
  { token := .ok "tok", reply := .ok "blob:result", loadOk := true
    decodedW := 8, decodedH := 6, decodedContent := noContent }

/-! Claims -/

/-- Claim C1: while the session lock (`isInpaintingLoading`) is true, a pointer
press over the surface is dropped by the `pointer-events-none` class before it
can reach `canvas.onmousedown`, so the whole editor state — in particular the
stroke history and the active stroke's brush size — is unchanged: the press is a
no-op, not an error. -/
theorem pointerPress_locked_is_noop (s : EditorState) (ev : MouseEv)
    (h : s.isInpaintingLoading = true) : pointerPress s ev = s := by
  simp [pointerPress, h]

theorem pointerPress_locked_is_noop_witness :
    lockedState.isInpaintingLoading = true ∧
      pointerPress lockedState ⟨15, 25⟩ = lockedState :=
  ⟨rfl, pointerPress_locked_is_noop lockedState ⟨15, 25⟩ rfl⟩

/-- Claim C10: a pointer press that starts a stroke (base image loaded, lock
free) sets the active stroke's size to the configured brush size and immediately
appends the press position mapped through the coordinate mapper (page
coordinates minus the canvas offset) as the stroke's first new point, so every
stroke entering the Drawing state has at least one point before any move. -/
theorem pointerPress_appends_press_point (s : EditorState) (c : Ctx) (ev : MouseEv)
    (ls : List Line) (a : Line) (hlock : s.isInpaintingLoading = false)
    (hsrc : s.original.src ≠ "") (hc : s.context = some c) (hl : s.lines = ls ++ [a]) :
    (pointerPress s ev).lines =
      ls ++ [{ size := some s.brushSize,
               pts := a.pts ++ [⟨ev.pageX - s.canvasOffsetLeft,
                                ev.pageY - s.canvasOffsetTop⟩] }] ∧
    ∀ l, (pointerPress s ev).lines.getLast? = some l → 0 < l.pts.length := by
  have hmain : (pointerPress s ev).lines =
      ls ++ [{ size := some s.brushSize,
               pts := a.pts ++ [⟨ev.pageX - s.canvasOffsetLeft,
                                ev.pageY - s.canvasOffsetTop⟩] }] := by
    simp only [pointerPress, hlock, hc, Bool.false_eq_true, if_false]
    simp only [onMouseDown, if_neg hsrc, onPaint, draw_lines, hl]
    rw [setLast_concat, setLast_concat]
  refine ⟨hmain, fun l hlast => ?_⟩
  rw [hmain, List.getLast?_concat] at hlast
  injection hlast with h2
  subst h2
  simp

theorem pointerPress_appends_press_point_witness :
    (pointerPress s0 ⟨15, 25⟩).lines =
      [] ++ [{ size := some s0.brushSize,
               pts := pendingLine.pts ++ [⟨15 - s0.canvasOffsetLeft,
                                          25 - s0.canvasOffsetTop⟩] }] :=
  (pointerPress_appends_press_point s0 visCtx ⟨15, 25⟩ [] pendingLine rfl
    (by decide) rfl rfl).1

/-- Claim C5: `refreshCanvasMask` throws `canvas has invalid size` whenever the
visible surface has zero width or zero height; with non-zero dimensions it does
not throw on the dimension check and produces a mask of exactly the surface's
dimensions on which the full stroke history is rendered (a pixel is white
exactly when some stroke of the history covers it). -/
theorem refreshCanvasMask_dimension_check (c m : Ctx) (lines : List Line) :
    (c.width = 0 ∨ c.height = 0 →
      refreshCanvasMask (some c) m lines = .error "canvas has invalid size") ∧
    (c.width ≠ 0 → c.height ≠ 0 →
      ∃ r, refreshCanvasMask (some c) m lines = .ok r ∧
        r.width = c.width ∧ r.height = c.height ∧
        ∀ q, r.pixels q =
          if lines.any (fun l => lineCovers l q) then some "white" else none) := by
  constructor
  · intro h
    simp [refreshCanvasMask, h]
  · intro hw hh
    refine ⟨_, refreshCanvasMask_ok c m lines hw hh,
      drawLines_width _ _ _, drawLines_height _ _ _, fun q => ?_⟩
    rw [drawLines_pixels]
    rfl

theorem refreshCanvasMask_dimension_check_witness :
    (refreshCanvasMask (some (blankCtx 0 6)) (blankCtx 0 0) [strokeA] =
      .error "canvas has invalid size") ∧
    ∃ r, refreshCanvasMask (some visCtx) (blankCtx 0 0) [strokeA] = .ok r ∧
      r.width = visCtx.width ∧ r.height = visCtx.height ∧
      ∀ q, r.pixels q =
        if [strokeA].any (fun l => lineCovers l q) then some "white" else none :=
  ⟨(refreshCanvasMask_dimension_check (blankCtx 0 6) (blankCtx 0 0) [strokeA]).1
      (Or.inl rfl),
   (refreshCanvasMask_dimension_check visCtx (blankCtx 0 0) [strokeA]).2
      (by decide) (by decide)⟩

/-- Claim C8: a stroke with no point or an unset size is skipped by the
`!line?.pts.length || !line.size` guard of `drawLines`, so it contributes
nothing wherever it sits in the painted list — in particular the always-present
empty pending stroke never affects the rasterized mask. -/
theorem empty_or_unsized_stroke_noop (l : Line) (color : String)
    (h : l.pts = [] ∨ l.size = none) :
    (∀ (c : Ctx) (ls₁ ls₂ : List Line),
      drawLines c (ls₁ ++ l :: ls₂) color = drawLines c (ls₁ ++ ls₂) color) ∧
    (∀ (context : Option Ctx) (m : Ctx) (ls : List Line),
      refreshCanvasMask context m (ls ++ [pendingLine]) =
        refreshCanvasMask context m ls) := by
  have hc : strokeContributes l = false := by
    rcases h with h | h <;> simp [strokeContributes, h]
  have hskip : ∀ c : Ctx, strokePaint color c l = c := fun c => by
    simp [strokePaint, hc]
  have hpend : ∀ (color' : String) (c : Ctx), strokePaint color' c pendingLine = c := by
    intro color' c
    simp [strokePaint, strokeContributes, pendingLine]
  constructor
  · intro c ls₁ ls₂
    simp [drawLines, List.foldl_append, hskip]
  · intro context m ls
    cases context with
    | none => rfl
    | some c =>
      by_cases hg : c.width = 0 ∨ c.height = 0
      · simp [refreshCanvasMask, hg]
      · push_neg at hg
        rw [refreshCanvasMask_ok _ _ _ hg.1 hg.2, refreshCanvasMask_ok _ _ _ hg.1 hg.2]
        simp [drawLines, List.foldl_append, hpend]

theorem empty_or_unsized_stroke_noop_witness :
    drawLines visCtx ([strokeA] ++ pendingLine :: [strokeB]) "white" =
      drawLines visCtx ([strokeA] ++ [strokeB]) "white" :=
  (empty_or_unsized_stroke_noop pendingLine "white" (Or.inl rfl)).1 visCtx [strokeA] [strokeB]

/-- Claim C9: the mask rasterizer is recomputed in full from scratch — its
output never depends on the mask canvas's previous contents (resizing the canvas
resets its bitmap), so invoking it twice in succession with history and surface
unchanged yields bit-identical output. -/
theorem mask_rasterizer_idempotent :
    (∀ (context : Option Ctx) (m m' : Ctx) (lines : List Line),
      refreshCanvasMask context m lines = refreshCanvasMask context m' lines) ∧
    (∀ (context : Option Ctx) (m : Ctx) (lines : List Line) (r : Ctx),
      refreshCanvasMask context m lines = .ok r →
        refreshCanvasMask context r lines = .ok r) := by
  have hind : ∀ (context : Option Ctx) (m m' : Ctx) (lines : List Line),
      refreshCanvasMask context m lines = refreshCanvasMask context m' lines := by
    intro context m m' lines
    cases context with
    | none => rfl
    | some c =>
      by_cases hg : c.width = 0 ∨ c.height = 0 <;> simp [refreshCanvasMask, hg]
  exact ⟨hind, fun context m lines r h => (hind context r m lines).trans h⟩

theorem mask_rasterizer_idempotent_witness :
    refreshCanvasMask (some visCtx) (blankCtx 8 6) [] = .ok (blankCtx 8 6) :=
  mask_rasterizer_idempotent.2 (some visCtx) (blankCtx 0 0) [] (blankCtx 8 6) rfl

/-- Claim C6: a pixel of the rasterized mask is painted exactly when it is
painted in some individual stroke's own rasterization (union semantics — all
strokes use the same solid white), and permuting the stroke history yields the
same mask coverage. -/
theorem mask_union_order_independent (c m m' : Ctx) (lines lines' : List Line)
    (r r' : Ctx) (hp : lines.Perm lines')
    (hr : refreshCanvasMask (some c) m lines = .ok r)
    (hr' : refreshCanvasMask (some c) m' lines' = .ok r') (q : Point) :
    (r.pixels q = some "white" ↔
      ∃ l ∈ lines,
        (drawLines (blankCtx c.width c.height) [l] "white").pixels q = some "white") ∧
    r.pixels q = r'.pixels q := by
  obtain ⟨hw, hh, hrr⟩ := refreshCanvasMask_ok_inv hr
  obtain ⟨-, -, hrr'⟩ := refreshCanvasMask_ok_inv hr'
  subst hrr hrr'
  have hsingle : ∀ l : Line,
      (drawLines (blankCtx c.width c.height) [l] "white").pixels q = some "white" ↔
        lineCovers l q = true := by
    intro l
    rw [drawLines_pixels]
    cases hl : lineCovers l q <;> simp [hl, blankCtx]
  constructor
  · rw [drawLines_pixels]
    have hif : (if lines.any (fun l => lineCovers l q) then some "white"
        else (blankCtx c.width c.height).pixels q) = some "white" ↔
        lines.any (fun l => lineCovers l q) = true := by
      cases hany : lines.any (fun l => lineCovers l q) <;> simp [hany, blankCtx]
    rw [hif, List.any_eq_true]
    simp only [hsingle]
  · rw [drawLines_pixels, drawLines_pixels]
    have hany : lines.any (fun l => lineCovers l q) = lines'.any (fun l => lineCovers l q) := by
      apply Bool.eq_iff_iff.mpr
      simp only [List.any_eq_true]
      exact ⟨fun ⟨x, hx, hfx⟩ => ⟨x, hp.mem_iff.mp hx, hfx⟩,
             fun ⟨x, hx, hfx⟩ => ⟨x, hp.mem_iff.mpr hx, hfx⟩⟩
    rw [hany]

theorem mask_union_order_independent_witness :
    ((drawLines (blankCtx 8 6) [strokeA, strokeB] "white").pixels ⟨1, 1⟩ = some "white" ↔
      ∃ l ∈ [strokeA, strokeB],
        (drawLines (blankCtx visCtx.width visCtx.height) [l] "white").pixels ⟨1, 1⟩ =
          some "white") ∧
    (drawLines (blankCtx 8 6) [strokeA, strokeB] "white").pixels ⟨1, 1⟩ =
      (drawLines (blankCtx 8 6) [strokeB, strokeA] "white").pixels ⟨1, 1⟩ :=
  mask_union_order_independent visCtx (blankCtx 0 0) (blankCtx 0 0)
    [strokeA, strokeB] [strokeB, strokeA] _ _
    (List.Perm.swap strokeB strokeA [])
    (refreshCanvasMask_ok visCtx (blankCtx 0 0) [strokeA, strokeB] (by decide) (by decide))
    (refreshCanvasMask_ok visCtx (blankCtx 0 0) [strokeB, strokeA] (by decide) (by decide))
    ⟨1, 1⟩

/-- Claim C7: `draw` composites the visible surface by clearing it, painting the
base layer (`render` when a result was loaded, else `original`) and overlaying
only the last (active) stroke: pointwise, an overlay-covered pixel shows the
translucent red, any other pixel shows exactly the base layer's content over the
cleared surface; the committed strokes do not influence the result at all. -/
theorem draw_base_plus_active_overlay (s : EditorState) (c : Ctx)
    (ls : List Line) (a : Line) (hc : s.context = some c) (hl : s.lines = ls ++ [a]) :
    ∃ c', (draw s).context = some c' ∧
      (∀ q, c'.pixels q =
        if lineCovers a q then some "rgba(255, 0, 0, 0.5)"
        else if s.render.src ≠ "" then s.render.content q else s.original.content q) ∧
      (∀ ls' : List Line, (draw { s with lines := ls' ++ [a] }).context = some c') := by
  have hbase : ∀ (img : Image) (q : Point),
      (drawImage (clearRect c) img).pixels q = img.content q := by
    intro img q
    cases h : img.content q <;> simp [drawImage, clearRect, h]
  refine ⟨drawLines
      (if s.render.src ≠ "" then drawImage (clearRect c) s.render
       else drawImage (clearRect c) s.original) [a], ?_, fun q => ?_, fun ls' => ?_⟩
  · simp [draw, hc, hl, List.getLast?_concat]
  · rw [drawLines_pixels]
    have h1 : [a].any (fun l => lineCovers l q) = lineCovers a q := by simp
    rw [h1]
    cases hcov : lineCovers a q
    · by_cases hr : s.render.src ≠ "" <;> simp [hr, hbase]
    · simp
  · simp [draw, hc, List.getLast?_concat]

theorem draw_base_plus_active_overlay_witness :
    ∃ c', (draw s0).context = some c' ∧
      (∀ q, c'.pixels q =
        if lineCovers pendingLine q then some "rgba(255, 0, 0, 0.5)"
        else if s0.render.src ≠ "" then s0.render.content q else s0.original.content q) ∧
      (∀ ls' : List Line, (draw { s0 with lines := ls' ++ [pendingLine] }).context = some c') :=
  draw_base_plus_active_overlay s0 visCtx [] pendingLine rfl rfl

/-- Claim C2: every submission (base image loaded, surface valid), whether it
succeeds or fails, lets no exception escape, appends exactly one empty pending
stroke to the history (never rolling it back), and leaves the session lock
false; on success the base layer (`render`) becomes the decoded result image,
and on any failure — rejected token fetch, rejected request, falsy reply, or
failed decode — `render` is left unchanged. -/
theorem submission_advances_history (s : EditorState) (o : Oracle)
    (hsrc : s.original.src ≠ "") (hsurf : surfaceOk s = true) :
    (onMouseUp s o).thrown = none ∧
    (onMouseUp s o).state.lines = s.lines ++ [pendingLine] ∧
    (onMouseUp s o).state.isInpaintingLoading = false ∧
    (submitSucceeds o = true →
      (onMouseUp s o).state.render =
        { src := replyRes o, width := o.decodedW, height := o.decodedH,
          content := o.decodedContent }) ∧
    (submitSucceeds o = false → (onMouseUp s o).state.render = s.render) := by
  obtain ⟨c, hc⟩ : ∃ c, s.context = some c := by
    cases h : s.context with
    | none => simp [surfaceOk, h] at hsurf
    | some c => exact ⟨c, rfl⟩
  have hwh : c.width ≠ 0 ∧ c.height ≠ 0 := by
    simp [surfaceOk, hc] at hsurf
    exact hsurf
  obtain ⟨f, bs, orig, rend, ctxO, mask, lns, loading, lst, ol, ot⟩ := s
  simp only at hc
  subst hc
  have hmask := refreshCanvasMask_ok c mask lns hwh.1 hwh.2
  simp only [onMouseUp, if_neg hsrc]
  rw [hmask]
  obtain ⟨tok, reply, loadOk, dw, dh, dc⟩ := o
  cases tok with
  | error e =>
    simp [trySubmit, catchPath_thrown, catchPath_lines, catchPath_loading,
      catchPath_render, submitSucceeds, Except.isOk, Except.toBool]
  | ok tokv =>
    cases reply with
    | error e =>
      simp [trySubmit, catchPath_thrown, catchPath_lines, catchPath_loading,
        catchPath_render, submitSucceeds, Except.isOk, Except.toBool]
    | ok res =>
      by_cases hres : res = ""
      · subst hres
        simp [trySubmit, catchPath_thrown, catchPath_lines, catchPath_loading,
          catchPath_render, submitSucceeds, Except.isOk, Except.toBool]
      · cases loadOk with
        | false =>
          simp [trySubmit, loadImage, hres, catchPath_thrown, catchPath_lines,
            catchPath_loading, catchPath_render, submitSucceeds, Except.isOk,
            Except.toBool]
        | true =>
          simp [trySubmit, loadImage, hres, finishTail_thrown, finishTail_lines,
            finishTail_loading, finishTail_render, submitSucceeds, replyRes,
            Except.isOk, Except.toBool]

theorem submission_advances_history_witness :
    (onMouseUp s0 o0).state.lines = s0.lines ++ [pendingLine] ∧
      (onMouseUp s0 o0).state.isInpaintingLoading = false :=
  ⟨(submission_advances_history s0 o0 (by decide) rfl).2.1,
   (submission_advances_history s0 o0 (by decide) rfl).2.2.1⟩

/-- Claim C3 as stated is false: on pointer release the source sets the session
lock (`setIsInpaintingLoading(true)`, line 122) before it detaches the
move/release listeners (lines 123–124), whereas the claim requires the
detachment first.  At a concrete submission the restriction of the effect trace
to the five claimed steps is not `[detach, lock, rasterize, token, request]`. -/
theorem submission_order_claim_false :
    submitSteps (onMouseUp s0 o0).trace ≠
      [.detach, .lock, .rasterize, .token, .request] := by
  decide

/-- Claim C3 (amended): on the Drawing → Submitting transition the side effects
occur in exactly this order: set the Session Lock to true; detach the
move/release listeners; rasterize the mask over the full stroke history; fetch
the auth token; issue the inpainting request with the original image bytes, the
rasterized mask and the token. -/
theorem submission_effect_order (s : EditorState) (o : Oracle) (tok : String)
    (hsrc : s.original.src ≠ "") (hsurf : surfaceOk s = true)
    (htok : o.token = .ok tok) :
    submitSteps (onMouseUp s o).trace =
      [.lock, .detach, .rasterize, .token, .request] ∧
    ∃ mc, refreshCanvasMask s.context s.maskCanvas s.lines = .ok mc ∧
      Effect.inpaintRequest s.file mc tok ∈ (onMouseUp s o).trace := by
  obtain ⟨c, hc⟩ : ∃ c, s.context = some c := by
    cases h : s.context with
    | none => simp [surfaceOk, h] at hsurf
    | some c => exact ⟨c, rfl⟩
  have hwh : c.width ≠ 0 ∧ c.height ≠ 0 := by
    simp [surfaceOk, hc] at hsurf
    exact hsurf
  obtain ⟨f, bs, orig, rend, ctxO, mask, lns, loading, lst, ol, ot⟩ := s
  simp only at hc
  subst hc
  have hmask := refreshCanvasMask_ok c mask lns hwh.1 hwh.2
  simp only [onMouseUp, if_neg hsrc]
  rw [hmask]
  obtain ⟨tokE, reply, loadOk, dw, dh, dc⟩ := o
  simp only at htok
  subst htok
  refine ⟨?_, drawLines (blankCtx c.width c.height) lns "white", rfl, ?_⟩ <;>
  · cases reply with
    | error e =>
      simp [trySubmit, catchPath_trace, finishTail_trace, submitSteps, stepOf,
        List.filterMap_append, List.filterMap_cons, List.mem_append, List.mem_cons]
    | ok res =>
      by_cases hres : res = ""
      · subst hres
        simp [trySubmit, catchPath_trace, finishTail_trace, submitSteps, stepOf,
          List.filterMap_append, List.filterMap_cons, List.mem_append, List.mem_cons]
      · cases loadOk with
        | false =>
          simp [trySubmit, loadImage, hres, catchPath_trace, finishTail_trace,
            submitSteps, stepOf, List.filterMap_append, List.filterMap_cons,
            List.mem_append, List.mem_cons]
        | true =>
          simp [trySubmit, loadImage, hres, catchPath_trace, finishTail_trace,
            submitSteps, stepOf, List.filterMap_append, List.filterMap_cons,
            List.mem_append, List.mem_cons]

theorem submission_effect_order_witness :
    submitSteps (onMouseUp s0 o0).trace =
      [.lock, .detach, .rasterize, .token, .request] :=
  (submission_effect_order s0 o0 "tok" (by decide) rfl rfl).1

/-- Claim C4: a submission whose inpainting call resolves with a falsy (empty)
result takes exactly the failure path of a thrown error — the final state and
trace coincide with those of an oracle whose request rejects with `empty
response`, an `inpaint_failed` event is recorded, and the base layer is left
unchanged. -/
theorem empty_reply_takes_failure_path (s : EditorState) (o : Oracle) (tok : String)
    (hsrc : s.original.src ≠ "") (hsurf : surfaceOk s = true)
    (htok : o.token = .ok tok) (hrep : o.reply = .ok "") :
    onMouseUp s o = onMouseUp s { o with reply := .error "empty response" } ∧
    Effect.logEvent "inpaint_failed" ∈ (onMouseUp s o).trace ∧
    (onMouseUp s o).state.render = s.render := by
  obtain ⟨c, hc⟩ : ∃ c, s.context = some c := by
    cases h : s.context with
    | none => simp [surfaceOk, h] at hsurf
    | some c => exact ⟨c, rfl⟩
  have hwh : c.width ≠ 0 ∧ c.height ≠ 0 := by
    simp [surfaceOk, hc] at hsurf
    exact hsurf
  obtain ⟨f, bs, orig, rend, ctxO, mask, lns, loading, lst, ol, ot⟩ := s
  simp only at hc
  subst hc
  have hmask := refreshCanvasMask_ok c mask lns hwh.1 hwh.2
  obtain ⟨tokE, reply, loadOk, dw, dh, dc⟩ := o
  simp only at htok hrep
  subst htok
  subst hrep
  refine ⟨?_, ?_, ?_⟩
  · simp only [onMouseUp, if_neg hsrc]
    rw [hmask]
    simp [trySubmit]
  · simp only [onMouseUp, if_neg hsrc]
    rw [hmask]
    simp [trySubmit, catchPath_trace]
  · simp only [onMouseUp, if_neg hsrc]
    rw [hmask]
    simp [trySubmit, catchPath_render]

theorem empty_reply_takes_failure_path_witness :
    Effect.logEvent "inpaint_failed" ∈
        (onMouseUp s0 { o0 with reply := .ok "" }).trace ∧
      (onMouseUp s0 { o0 with reply := .ok "" }).state.render = s0.render :=
  ⟨(empty_reply_takes_failure_path s0 { o0 with reply := .ok "" } "tok"
      (by decide) rfl rfl rfl).2.1,
   (empty_reply_takes_failure_path s0 { o0 with reply := .ok "" } "tok"
      (by decide) rfl rfl rfl).2.2⟩

end Cleanup
